import Mathlib

/-!
Shallow embedding of the smallbox crate's core container (src/smallbox.rs).

A SmallBox stores a value either inline, in an uninitialized buffer whose
size and alignment come from the Space type parameter, or in a single heap
allocation.  The pointer field always carries the metadata; its address
component is the sentinel 0x1 when the data is inline, a real heap address
when the data was allocated, or an address synthesized from the alignment
for zero-sized values that do not fit inline.

Machine pointers are modelled as natural-number addresses, byte buffers as
lists of naturals, and the global allocator as a bump allocator over a list
of live blocks.  Every operation additionally returns the list of observable
events it performs (allocator calls, byte copies, destructor runs), so that
the temporal claims (destructor runs once, free-after-destruct, no allocator
call for zero-sized values) can be stated over traces.
-/

namespace SmallBoxModel

/-- Byte size and alignment of a type or memory block, mirroring
core::alloc::Layout. -/
structure Layout where
  size : Nat
  align : Nat
deriving DecidableEq, Repr

/-- Mirrors Layout::align_to: same size, alignment raised to at least a. -/
def Layout.align_to (l : Layout) (a : Nat) : Layout :=
  ⟨l.size, max l.align a⟩

/-- The sentinel address 0x1 marking inline storage (INLINE_SENTINEL in
smallbox.rs).  It is never supposed to be dereferenced. -/
def INLINE_SENTINEL : Nat := 1

/-- Minimum alignment forced onto every heap allocation (MIN_ALIGNMENT in
smallbox.rs), preventing the allocator from returning the sentinel. -/
def MIN_ALIGNMENT : Nat := 2

/-- Shape of a concrete Rust type: its layout plus its TypeId. -/
structure Ty where
  size : Nat
  align : Nat
  id : Nat
deriving DecidableEq, Repr

/-- Layout of a value of type t (Layout::for_value). -/
def Ty.layout (t : Ty) : Layout := ⟨t.size, t.align⟩

/-- A concrete value: its type descriptor and its raw bytes. -/
structure Val where
  ty : Ty
  bytes : List Nat
deriving DecidableEq, Repr

/-- Observable effects performed by the operations. -/
inductive Event where
  | alloc (l : Layout) (addr : Nat)
  | dealloc (addr : Nat) (l : Layout)
  | copy (n : Nat)
  | dropVal (id : Nat)
  | dropSpace
deriving DecidableEq, Repr

/-- Recognizes a destructor run of the boxed value. -/
def isDropVal : Event → Bool
  | Event.dropVal _ => true
  | Event.alloc _ _ => false
  | Event.dealloc _ _ => false
  | Event.copy _ => false
  | Event.dropSpace => false

/-- Recognizes a destructor run of the Space parameter. -/
def isDropSpace : Event → Bool
  | Event.dropSpace => true
  | Event.alloc _ _ => false
  | Event.dealloc _ _ => false
  | Event.copy _ => false
  | Event.dropVal _ => false

/-- Recognizes an allocator allocation call. -/
def isAlloc : Event → Bool
  | Event.alloc _ _ => true
  | Event.dealloc _ _ => false
  | Event.copy _ => false
  | Event.dropVal _ => false
  | Event.dropSpace => false

/-- Recognizes an allocator deallocation call. -/
def isDealloc : Event → Bool
  | Event.dealloc _ _ => true
  | Event.alloc _ _ => false
  | Event.copy _ => false
  | Event.dropVal _ => false
  | Event.dropSpace => false

/-- The global allocator state: a bump cursor plus the live blocks
(address, layout, stored bytes). -/
structure Heap where
  next : Nat
  blocks : List (Nat × Layout × List Nat)
deriving DecidableEq, Repr

/-- Allocate a block for layout l holding the given bytes.  The returned
address is the bump cursor (at least 1) rounded up to a multiple of the
requested alignment, so it is a nonzero multiple of l.align. -/
def Heap.alloc (h : Heap) (l : Layout) (b : List Nat) : Nat × Heap :=
  let base := max h.next 1
  let addr := ((base + l.align - 1) / l.align) * l.align
  (addr, ⟨addr + l.size, (addr, l, b) :: h.blocks⟩)

/-- Bytes stored in the block at the given address, if any. -/
def Heap.lookup (h : Heap) (addr : Nat) : Option (List Nat) :=
  (h.blocks.find? (fun blk => blk.1 == addr)).map (fun blk => blk.2.2)

/-- Release the block at the given address. -/
def Heap.dealloc (h : Heap) (addr : Nat) : Heap :=
  ⟨h.next, h.blocks.eraseP (fun blk => blk.1 == addr)⟩

/-- The container: the capacity layout contributed by the Space type
parameter, the address component of the ptr field, the metadata frozen at
construction (the concrete value's shape), and the initialized bytes of the
inline buffer (meaningful only on the inline path). -/
structure SmallBox where
  space : Layout
  ptrAddr : Nat
  meta : Ty
  spaceBytes : List Nat
deriving DecidableEq, Repr

/-- SmallBox::is_heap: true iff the stored address is not the sentinel. -/
def SmallBox.is_heap (sb : SmallBox) : Bool :=
  sb.ptrAddr != INLINE_SENTINEL

/-- SmallBox::new_copy: decide the placement from the value's layout and the
Space layout, copy the value's bytes into the chosen location, and keep the
metadata in the ptr field. -/
def new_copy (sp : Layout) (v : Val) (h : Heap) : SmallBox × Heap × List Event :=
  let layout := v.ty.layout
  if layout.size ≤ sp.size ∧ layout.align ≤ sp.align then
    (⟨sp, INLINE_SENTINEL, v.ty, v.bytes.take layout.size⟩, h, [Event.copy layout.size])
  else if layout.size = 0 then
    (⟨sp, layout.align, v.ty, []⟩, h, [Event.copy layout.size])
  else
    let l2 := layout.align_to MIN_ALIGNMENT
    let a := h.alloc l2 (v.bytes.take layout.size)
    (⟨sp, a.1, v.ty, []⟩, a.2, [Event.alloc l2 a.1, Event.copy layout.size])

/-- Bytes of the stored value, read through as_ptr: from the heap block when
the address is real, from the inline buffer when it is the sentinel. -/
def SmallBox.readBytes (sb : SmallBox) (h : Heap) : List Nat :=
  if sb.is_heap then ((h.lookup sb.ptrAddr).getD []).take sb.meta.size
  else sb.spaceBytes.take sb.meta.size

/-- Address component produced by as_ptr, given the runtime address of the
inline buffer: the sentinel is compared by value and, when it matches,
replaced by the buffer address; it is never used as a location itself. -/
def SmallBox.as_ptr_addr (sb : SmallBox) (spaceAddr : Nat) : Nat :=
  if sb.is_heap then sb.ptrAddr else spaceAddr

/-- SmallBox::resize: heap data is carried over untouched; inline data is
re-boxed through new_copy against the new capacity. -/
def SmallBox.resize (sb : SmallBox) (toSp : Layout) (h : Heap) : SmallBox × Heap × List Event :=
  if sb.is_heap then
    (⟨toSp, sb.ptrAddr, sb.meta, []⟩, h, [])
  else
    new_copy toSp ⟨sb.meta, sb.readBytes h⟩ h

/-- SmallBox::downcast_unchecked: retype the box; when inline, copy
size_of target bytes into the new inline buffer; the address is kept. -/
def SmallBox.downcast_unchecked (sb : SmallBox) (target : Ty) : SmallBox × List Event :=
  if sb.is_heap then
    (⟨sb.space, sb.ptrAddr, target, []⟩, [])
  else
    (⟨sb.space, sb.ptrAddr, target, sb.spaceBytes.take target.size⟩,
      [Event.copy target.size])

/-- SmallBox::downcast: succeed iff the stored value's TypeId matches the
target's, otherwise hand the container back untouched. -/
def SmallBox.downcast (sb : SmallBox) (target : Ty) : Except SmallBox SmallBox × List Event :=
  if sb.meta.id == target.id then
    let r := sb.downcast_unchecked target
    (Except.ok r.1, r.2)
  else
    (Except.error sb, [])

/-- SmallBox::into_inner: read the value out without destructing it, then
deallocate the heap block exactly when the box is heap placed and the type
is not zero sized. -/
def SmallBox.into_inner (sb : SmallBox) (h : Heap) : List Nat × Heap × List Event :=
  let ret := sb.readBytes h
  if sb.is_heap && sb.meta.size != 0 then
    let l := sb.meta.layout.align_to MIN_ALIGNMENT
    (ret, h.dealloc sb.ptrAddr, [Event.dealloc sb.ptrAddr l])
  else
    (ret, h, [])

/-- Drop for SmallBox: run the boxed value's destructor in place, then, only
when heap placed and the layout's size is nonzero, deallocate. -/
def SmallBox.drop (sb : SmallBox) (h : Heap) : Heap × List Event :=
  let l := sb.meta.layout.align_to MIN_ALIGNMENT
  if sb.is_heap && l.size != 0 then
    (h.dealloc sb.ptrAddr, [Event.dropVal sb.meta.id, Event.dealloc sb.ptrAddr l])
  else
    (h, [Event.dropVal sb.meta.id])

/-- An intermediate operation applied to a live container. -/
inductive Op where
  | resize (toSp : Layout)
  | downcast (target : Ty)
deriving DecidableEq, Repr

/-- Run a sequence of resize and downcast operations, concatenating their
event traces; a failed downcast continues with the returned original. -/
def runOps : List Op → SmallBox → Heap → SmallBox × Heap × List Event
  | [], sb, h => (sb, h, [])
  | Op.resize toSp :: rest, sb, h =>
      let r1 := sb.resize toSp h
      let r2 := runOps rest r1.1 r1.2.1
      (r2.1, r2.2.1, r1.2.2 ++ r2.2.2)
  | Op.downcast t :: rest, sb, h =>
      let r1 := sb.downcast t
      let sb1 := match r1.1 with
        | Except.ok b => b
        | Except.error b => b
      let r2 := runOps rest sb1 h
      (r2.1, r2.2.1, r1.2 ++ r2.2.2)

/-- Run a sequence of resize operations only. -/
def runResizes : List Layout → SmallBox → Heap → SmallBox × Heap × List Event
  | [], sb, h => (sb, h, [])
  | toSp :: rest, sb, h =>
      let r1 := sb.resize toSp h
      let r2 := runResizes rest r1.1 r1.2.1
      (r2.1, r2.2.1, r1.2.2 ++ r2.2.2)

/-- Full lifetime of a container: construction, any resizes and downcasts,
then drop; the concatenated event trace. -/
def lifecycle (sp : Layout) (ops : List Op) (v : Val) (h : Heap) : List Event :=
  let r1 := new_copy sp v h
  let r2 := runOps ops r1.1 r1.2.1
  let r3 := r2.1.drop r2.2.1
  r1.2.2 ++ r2.2.2 ++ r3.2

/-- Allocation performed by new_copy's heap branch. -/
def heapAlloc (v : Val) (h : Heap) : Nat × Heap :=
  h.alloc (v.ty.layout.align_to MIN_ALIGNMENT) (v.bytes.take v.ty.size)

theorem Heap.alloc_addr_ge (h : Heap) (l : Layout) (b : List Nat) (hl : 0 < l.align) :
    l.align ≤ (h.alloc l b).1 := by
  show l.align ≤ ((max h.next 1 + l.align - 1) / l.align) * l.align
  have h1 : 1 ≤ (max h.next 1 + l.align - 1) / l.align := by
    rw [Nat.one_le_div_iff hl]
    have := le_max_right h.next 1
    omega
  calc l.align = 1 * l.align := (one_mul _).symm
    _ ≤ ((max h.next 1 + l.align - 1) / l.align) * l.align := Nat.mul_le_mul_right _ h1

theorem new_copy_fit (sp : Layout) (v : Val) (h : Heap)
    (hfit : v.ty.size ≤ sp.size ∧ v.ty.align ≤ sp.align) :
    new_copy sp v h =
      (⟨sp, INLINE_SENTINEL, v.ty, v.bytes.take v.ty.size⟩, h, [Event.copy v.ty.size]) := by
  simp [new_copy, Ty.layout, hfit.1, hfit.2]

theorem new_copy_zst (sp : Layout) (v : Val) (h : Heap)
    (hnot : ¬(v.ty.size ≤ sp.size ∧ v.ty.align ≤ sp.align)) (hz : v.ty.size = 0) :
    new_copy sp v h = (⟨sp, v.ty.align, v.ty, []⟩, h, [Event.copy v.ty.size]) := by
  simp only [new_copy, Ty.layout]
  rw [if_neg hnot, if_pos hz]

theorem new_copy_heap (sp : Layout) (v : Val) (h : Heap)
    (hnot : ¬(v.ty.size ≤ sp.size ∧ v.ty.align ≤ sp.align)) (hz : v.ty.size ≠ 0) :
    new_copy sp v h =
      (⟨sp, (heapAlloc v h).1, v.ty, []⟩, (heapAlloc v h).2,
        [Event.alloc (v.ty.layout.align_to MIN_ALIGNMENT) (heapAlloc v h).1,
          Event.copy v.ty.size]) := by
  simp only [new_copy, Ty.layout, heapAlloc]
  rw [if_neg hnot, if_neg hz]

theorem heapAlloc_addr_ge_two (v : Val) (h : Heap) : 2 ≤ (heapAlloc v h).1 := by
  have hge := Heap.alloc_addr_ge h (v.ty.layout.align_to MIN_ALIGNMENT)
    (v.bytes.take v.ty.size) (by simp [Layout.align_to, MIN_ALIGNMENT])
  have : 2 ≤ (v.ty.layout.align_to MIN_ALIGNMENT).align := by
    simp [Layout.align_to, MIN_ALIGNMENT]
  exact le_trans this hge

theorem heapAlloc_ne_sentinel (v : Val) (h : Heap) :
    (heapAlloc v h).1 ≠ INLINE_SENTINEL := by
  have h2 := heapAlloc_addr_ge_two v h
  simp only [INLINE_SENTINEL]
  omega

theorem Heap.lookup_alloc (h : Heap) (l : Layout) (b : List Nat) :
    ((h.alloc l b).2).lookup (h.alloc l b).1 = some b := by
  unfold Heap.alloc Heap.lookup
  simp

theorem heapAlloc_lookup (v : Val) (h : Heap) :
    ((heapAlloc v h).2).lookup (heapAlloc v h).1 = some (v.bytes.take v.ty.size) :=
  Heap.lookup_alloc h _ _

theorem new_copy_meta (sp : Layout) (v : Val) (h : Heap) :
    (new_copy sp v h).1.meta = v.ty := by
  simp only [new_copy]
  split
  · rfl
  split
  · rfl
  · rfl

theorem new_copy_is_heap_false (sp : Layout) (v : Val) (h : Heap)
    (hfit : v.ty.size ≤ sp.size ∧ v.ty.align ≤ sp.align) :
    ((new_copy sp v h).1).is_heap = false := by
  rw [new_copy_fit sp v h hfit]
  rfl

theorem new_copy_is_heap_true (sp : Layout) (v : Val) (h : Heap)
    (hsp : 1 ≤ sp.align)
    (hnot : ¬(v.ty.size ≤ sp.size ∧ v.ty.align ≤ sp.align)) :
    ((new_copy sp v h).1).is_heap = true := by
  by_cases hz : v.ty.size = 0
  · rw [new_copy_zst sp v h hnot hz]
    have halign : sp.align < v.ty.align := by
      by_contra hc
      push_neg at hc
      exact hnot ⟨by omega, hc⟩
    simp only [SmallBox.is_heap, INLINE_SENTINEL, bne_iff_ne, ne_eq,
      decide_eq_true_eq]
    omega
  · rw [new_copy_heap sp v h hnot hz]
    have h2 := heapAlloc_addr_ge_two v h
    simp only [SmallBox.is_heap, INLINE_SENTINEL, bne_iff_ne, ne_eq,
      decide_eq_true_eq]
    omega

theorem new_copy_readBytes (sp : Layout) (v : Val) (h : Heap)
    (hwf : v.bytes.length = v.ty.size) :
    ((new_copy sp v h).1).readBytes (new_copy sp v h).2.1 = v.bytes := by
  have htake : v.bytes.take v.ty.size = v.bytes := by
    rw [← hwf]
    exact List.take_length v.bytes
  by_cases hfit : v.ty.size ≤ sp.size ∧ v.ty.align ≤ sp.align
  · rw [new_copy_fit sp v h hfit]
    simp [SmallBox.readBytes, SmallBox.is_heap, INLINE_SENTINEL,
      List.take_take, htake]
  · by_cases hz : v.ty.size = 0
    · rw [new_copy_zst sp v h hfit hz]
      have hb : v.bytes = [] := List.length_eq_zero.mp (by omega)
      simp [SmallBox.readBytes, hz, hb]
    · rw [new_copy_heap sp v h hfit hz]
      have hne : (heapAlloc v h).1 ≠ 1 := heapAlloc_ne_sentinel v h
      simp [SmallBox.readBytes, SmallBox.is_heap, INLINE_SENTINEL,
        bne_iff_ne, hne, heapAlloc_lookup, List.take_take, htake]

theorem resize_meta (sb : SmallBox) (toSp : Layout) (h : Heap) :
    (sb.resize toSp h).1.meta = sb.meta := by
  by_cases hh : sb.is_heap
  · simp [SmallBox.resize, hh]
  · unfold SmallBox.resize
    rw [if_neg hh]
    exact new_copy_meta toSp ⟨sb.meta, sb.readBytes h⟩ h

/-- C1: a value whose byte size and alignment both fit the capacity layout is
placed inline, so is_heap is false immediately after construction; a value
exceeding either bound is placed so that is_heap is true immediately after
construction. -/
theorem is_heap_after_construction (sp : Layout) (v : Val) (h : Heap)
    (hsp : 1 ≤ sp.align) :
    (v.ty.size ≤ sp.size ∧ v.ty.align ≤ sp.align →
      ((new_copy sp v h).1).is_heap = false) ∧
    (¬(v.ty.size ≤ sp.size ∧ v.ty.align ≤ sp.align) →
      ((new_copy sp v h).1).is_heap = true) :=
  ⟨fun hfit => new_copy_is_heap_false sp v h hfit,
   fun hnot => new_copy_is_heap_true sp v h hsp hnot⟩

/-- Witness for C1: an 8-byte value fits an 8-byte capacity and stays
inline; a 16-byte value exceeds it and goes to the heap. -/
theorem is_heap_after_construction_witness :
    ((new_copy ⟨8, 8⟩ ⟨⟨8, 8, 1⟩, [1, 2, 3, 4, 5, 6, 7, 8]⟩ ⟨0, []⟩).1).is_heap = false ∧
    ((new_copy ⟨8, 8⟩ ⟨⟨16, 8, 2⟩, List.range 16⟩ ⟨0, []⟩).1).is_heap = true :=
  ⟨(is_heap_after_construction ⟨8, 8⟩ ⟨⟨8, 8, 1⟩, [1, 2, 3, 4, 5, 6, 7, 8]⟩ ⟨0, []⟩
      (by decide)).1 (by decide),
   (is_heap_after_construction ⟨8, 8⟩ ⟨⟨16, 8, 2⟩, List.range 16⟩ ⟨0, []⟩
      (by decide)).2 (by decide)⟩

theorem into_inner_fst (sb : SmallBox) (h : Heap) :
    (sb.into_inner h).1 = sb.readBytes h := by
  simp only [SmallBox.into_inner]
  split <;> rfl

theorem into_inner_events (sb : SmallBox) (h : Heap) :
    (sb.into_inner h).2.2 =
      if sb.is_heap && sb.meta.size != 0 then
        [Event.dealloc sb.ptrAddr (sb.meta.layout.align_to MIN_ALIGNMENT)]
      else [] := by
  simp only [SmallBox.into_inner]
  split <;> rfl

/-- C3: into_inner applied right after construction returns bytes identical
to the constructed value's, runs no destructor, and issues exactly one
deallocation precisely when the box is heap placed and the type is not zero
sized. -/
theorem into_inner_after_construction (sp : Layout) (v : Val) (h : Heap)
    (hwf : v.bytes.length = v.ty.size) :
    ((new_copy sp v h).1.into_inner (new_copy sp v h).2.1).1 = v.bytes ∧
    (((new_copy sp v h).1.into_inner (new_copy sp v h).2.1).2.2).countP isDropVal = 0 ∧
    ((((new_copy sp v h).1.into_inner (new_copy sp v h).2.1).2.2).countP isDealloc = 1 ↔
      (((new_copy sp v h).1).is_heap = true ∧ v.ty.size ≠ 0)) := by
  refine ⟨?_, ?_, ?_⟩
  · rw [into_inner_fst]
    exact new_copy_readBytes sp v h hwf
  · rw [into_inner_events]
    split <;> simp [List.countP_cons, List.countP_nil, isDropVal]
  · rw [into_inner_events, new_copy_meta]
    split
    next hc =>
      simp only [Bool.and_eq_true, bne_iff_ne, ne_eq] at hc
      simp [List.countP_cons, List.countP_nil, isDealloc, hc]
    next hc =>
      simp only [Bool.and_eq_true, bne_iff_ne, ne_eq] at hc
      simp [List.countP_nil, hc]

/-- Witness for C3: extracting a 16-byte heap-placed value returns its
bytes unchanged. -/
theorem into_inner_after_construction_witness :
    ((new_copy ⟨8, 8⟩ ⟨⟨16, 8, 2⟩, List.range 16⟩ ⟨0, []⟩).1.into_inner
      (new_copy ⟨8, 8⟩ ⟨⟨16, 8, 2⟩, List.range 16⟩ ⟨0, []⟩).2.1).1 = List.range 16 :=
  (into_inner_after_construction ⟨8, 8⟩ ⟨⟨16, 8, 2⟩, List.range 16⟩ ⟨0, []⟩ (by decide)).1

/-- C4: resize of an inline box is total and never reports a capacity
error: when the value still fits the new capacity the result stays inline
with the same content, and when it no longer fits the result is promoted
so that is_heap is true, still with the same content. -/
theorem resize_always_succeeds (sb : SmallBox) (toSp : Layout) (h : Heap)
    (hinl : sb.is_heap = false) (hwf : sb.spaceBytes.length = sb.meta.size)
    (hta : 1 ≤ toSp.align) :
    (sb.meta.size ≤ toSp.size ∧ sb.meta.align ≤ toSp.align →
      ((sb.resize toSp h).1).is_heap = false ∧
      (sb.resize toSp h).1.readBytes (sb.resize toSp h).2.1 = sb.readBytes h) ∧
    (¬(sb.meta.size ≤ toSp.size ∧ sb.meta.align ≤ toSp.align) →
      ((sb.resize toSp h).1).is_heap = true ∧
      (sb.resize toSp h).1.readBytes (sb.resize toSp h).2.1 = sb.readBytes h) := by
  have hres : sb.resize toSp h = new_copy toSp ⟨sb.meta, sb.readBytes h⟩ h := by
    unfold SmallBox.resize
    rw [if_neg (by simp [hinl])]
  have hwf2 : (sb.readBytes h).length = sb.meta.size := by
    unfold SmallBox.readBytes
    rw [if_neg (by simp [hinl])]
    simp only [List.length_take]
    omega
  constructor
  · intro hfit
    rw [hres]
    exact ⟨new_copy_is_heap_false _ _ _ hfit, new_copy_readBytes _ _ _ hwf2⟩
  · intro hnot
    rw [hres]
    exact ⟨new_copy_is_heap_true _ _ _ hta hnot, new_copy_readBytes _ _ _ hwf2⟩

/-- Witness for C4: shrinking the capacity under a 16-byte inline value
promotes it to the heap. -/
theorem resize_always_succeeds_witness :
    (((⟨⟨32, 8⟩, 1, ⟨16, 8, 2⟩, List.range 16⟩ : SmallBox).resize ⟨8, 8⟩ ⟨0, []⟩).1).is_heap
      = true :=
  ((resize_always_succeeds ⟨⟨32, 8⟩, 1, ⟨16, 8, 2⟩, List.range 16⟩ ⟨8, 8⟩ ⟨0, []⟩
      (by decide) (by decide) (by decide)).2 (by decide)).1

theorem resize_preserves_heap (sb : SmallBox) (toSp : Layout) (h : Heap)
    (hh : sb.is_heap = true) : ((sb.resize toSp h).1).is_heap = true := by
  unfold SmallBox.resize
  rw [if_pos hh]
  exact hh

/-- C5: once is_heap is true, no sequence of resize operations ever makes
it false again. -/
theorem heap_placement_monotone (caps : List Layout) (sb : SmallBox) (h : Heap)
    (hh : sb.is_heap = true) :
    ((runResizes caps sb h).1).is_heap = true := by
  induction caps generalizing sb h with
  | nil => simpa [runResizes] using hh
  | cons c rest ih =>
      simp only [runResizes]
      exact ih _ _ (resize_preserves_heap sb c h hh)

/-- Witness for C5: a heap-placed box stays heap-placed across two
resizes. -/
theorem heap_placement_monotone_witness :
    ((runResizes [⟨32, 8⟩, ⟨64, 8⟩] ⟨⟨8, 8⟩, 8, ⟨16, 8, 2⟩, []⟩ ⟨24, []⟩).1).is_heap = true :=
  heap_placement_monotone [⟨32, 8⟩, ⟨64, 8⟩] ⟨⟨8, 8⟩, 8, ⟨16, 8, 2⟩, []⟩ ⟨24, []⟩ (by decide)

/-- C9: resizing a heap-placed box keeps the heap address and the metadata
unchanged, leaves the heap untouched, and performs no copy and no allocator
call (its event trace is empty); only the capacity layout changes. -/
theorem resize_heap_carries_over (sb : SmallBox) (toSp : Layout) (h : Heap)
    (hh : sb.is_heap = true) :
    (sb.resize toSp h).1.ptrAddr = sb.ptrAddr ∧
    (sb.resize toSp h).1.meta = sb.meta ∧
    (sb.resize toSp h).1.space = toSp ∧
    (sb.resize toSp h).2.1 = h ∧
    (sb.resize toSp h).2.2 = [] := by
  unfold SmallBox.resize
  rw [if_pos hh]
  exact ⟨rfl, rfl, rfl, rfl, rfl⟩

/-- Witness for C9: resizing a concrete heap-placed box emits no events. -/
theorem resize_heap_carries_over_witness :
    ((⟨⟨8, 8⟩, 8, ⟨16, 8, 2⟩, []⟩ : SmallBox).resize ⟨32, 8⟩ ⟨24, []⟩).2.2 = [] :=
  (resize_heap_carries_over ⟨⟨8, 8⟩, 8, ⟨16, 8, 2⟩, []⟩ ⟨32, 8⟩ ⟨24, []⟩ (by decide)).2.2.2.2

theorem downcast_unchecked_heap (sb : SmallBox) (t : Ty) (hh : sb.is_heap = true) :
    sb.downcast_unchecked t = (⟨sb.space, sb.ptrAddr, t, []⟩, []) := by
  unfold SmallBox.downcast_unchecked
  rw [if_pos hh]

theorem downcast_unchecked_inline (sb : SmallBox) (t : Ty) (hh : sb.is_heap = false) :
    sb.downcast_unchecked t =
      (⟨sb.space, sb.ptrAddr, t, sb.spaceBytes.take t.size⟩, [Event.copy t.size]) := by
  unfold SmallBox.downcast_unchecked
  rw [if_neg (by simp [hh])]

theorem downcast_unchecked_ptrAddr (sb : SmallBox) (t : Ty) :
    ((sb.downcast_unchecked t).1).ptrAddr = sb.ptrAddr := by
  unfold SmallBox.downcast_unchecked
  split <;> rfl

theorem downcast_unchecked_is_heap (sb : SmallBox) (t : Ty) :
    ((sb.downcast_unchecked t).1).is_heap = sb.is_heap := by
  unfold SmallBox.is_heap
  rw [downcast_unchecked_ptrAddr]

theorem downcast_unchecked_readBytes_self (sb : SmallBox) (h : Heap) :
    ((sb.downcast_unchecked sb.meta).1).readBytes h = sb.readBytes h := by
  by_cases hh : sb.is_heap = true
  · rw [downcast_unchecked_heap sb sb.meta hh]
    have hh2 : (sb.ptrAddr != INLINE_SENTINEL) = true := hh
    simp only [SmallBox.readBytes, SmallBox.is_heap, hh2, if_true]
  · rw [Bool.not_eq_true] at hh
    rw [downcast_unchecked_inline sb sb.meta hh]
    have hh2 : (sb.ptrAddr != INLINE_SENTINEL) = false := hh
    simp only [SmallBox.readBytes, SmallBox.is_heap, hh2, Bool.false_eq_true,
      if_false, List.take_take, Nat.min_self]

theorem downcast_unchecked_event_counts (sb : SmallBox) (t : Ty) :
    ((sb.downcast_unchecked t).2).countP isDropVal = 0 ∧
    ((sb.downcast_unchecked t).2).countP isDealloc = 0 ∧
    ((sb.downcast_unchecked t).2).countP isAlloc = 0 := by
  unfold SmallBox.downcast_unchecked
  split <;> exact ⟨rfl, rfl, rfl⟩

/-- C6: downcasting to the stored value's own concrete type succeeds,
preserving the content, the address, and the placement, without any
destructor run, deallocation, or allocation; downcasting to a type with a
different TypeId fails and returns the original container unchanged with an
empty event trace. -/
theorem downcast_behavior (sb : SmallBox) (h : Heap) (target : Ty) :
    (target = sb.meta →
      (sb.downcast target).1 = Except.ok ((sb.downcast_unchecked target).1) ∧
      ((sb.downcast_unchecked target).1).readBytes h = sb.readBytes h ∧
      ((sb.downcast_unchecked target).1).ptrAddr = sb.ptrAddr ∧
      ((sb.downcast_unchecked target).1).is_heap = sb.is_heap ∧
      ((sb.downcast target).2).countP isDropVal = 0 ∧
      ((sb.downcast target).2).countP isDealloc = 0 ∧
      ((sb.downcast target).2).countP isAlloc = 0) ∧
    (target.id ≠ sb.meta.id →
      (sb.downcast target).1 = Except.error sb ∧ (sb.downcast target).2 = []) := by
  constructor
  · intro ht
    subst ht
    have hid : (sb.meta.id == sb.meta.id) = true := beq_self_eq_true _
    have hdc : sb.downcast sb.meta =
        (Except.ok (sb.downcast_unchecked sb.meta).1, (sb.downcast_unchecked sb.meta).2) := by
      unfold SmallBox.downcast
      rw [if_pos hid]
    obtain ⟨e1, e2, e3⟩ := downcast_unchecked_event_counts sb sb.meta
    exact ⟨by rw [hdc], downcast_unchecked_readBytes_self sb h,
      downcast_unchecked_ptrAddr sb sb.meta, downcast_unchecked_is_heap sb sb.meta,
      by rw [hdc]; exact e1, by rw [hdc]; exact e2, by rw [hdc]; exact e3⟩
  · intro hne
    have hid : (sb.meta.id == target.id) = false := beq_eq_false_iff_ne.mpr (Ne.symm hne)
    unfold SmallBox.downcast
    rw [if_neg (by simp [hid])]
    exact ⟨rfl, rfl⟩

/-- Witness for C6: downcasting an inline u32-like box to its own type
succeeds; downcasting it to a different TypeId returns the original. -/
theorem downcast_behavior_witness :
    ((⟨⟨8, 8⟩, 1, ⟨4, 4, 5⟩, [9, 9, 9, 9]⟩ : SmallBox).downcast ⟨4, 4, 5⟩).1
        = Except.ok
          (((⟨⟨8, 8⟩, 1, ⟨4, 4, 5⟩, [9, 9, 9, 9]⟩ : SmallBox).downcast_unchecked ⟨4, 4, 5⟩).1) ∧
    ((⟨⟨8, 8⟩, 1, ⟨4, 4, 5⟩, [9, 9, 9, 9]⟩ : SmallBox).downcast ⟨8, 8, 6⟩).1
        = Except.error ⟨⟨8, 8⟩, 1, ⟨4, 4, 5⟩, [9, 9, 9, 9]⟩ :=
  ⟨((downcast_behavior ⟨⟨8, 8⟩, 1, ⟨4, 4, 5⟩, [9, 9, 9, 9]⟩ ⟨0, []⟩ ⟨4, 4, 5⟩).1 rfl).1,
   ((downcast_behavior ⟨⟨8, 8⟩, 1, ⟨4, 4, 5⟩, [9, 9, 9, 9]⟩ ⟨0, []⟩ ⟨8, 8, 6⟩).2 (by decide)).1⟩

theorem new_copy_countP_zero (sp : Layout) (v : Val) (h : Heap) (p : Event → Bool)
    (hpa : ∀ l a, p (Event.alloc l a) = false) (hpc : ∀ n, p (Event.copy n) = false) :
    ((new_copy sp v h).2.2).countP p = 0 := by
  by_cases hfit : v.ty.size ≤ sp.size ∧ v.ty.align ≤ sp.align
  · rw [new_copy_fit sp v h hfit]
    simp [List.countP_cons, List.countP_nil, hpc]
  · by_cases hz : v.ty.size = 0
    · rw [new_copy_zst sp v h hfit hz]
      simp [List.countP_cons, List.countP_nil, hpc]
    · rw [new_copy_heap sp v h hfit hz]
      simp [List.countP_cons, List.countP_nil, hpa, hpc]

theorem resize_countP_zero (sb : SmallBox) (toSp : Layout) (h : Heap) (p : Event → Bool)
    (hpa : ∀ l a, p (Event.alloc l a) = false) (hpc : ∀ n, p (Event.copy n) = false) :
    ((sb.resize toSp h).2.2).countP p = 0 := by
  by_cases hh : sb.is_heap = true
  · unfold SmallBox.resize
    rw [if_pos hh]
    rfl
  · unfold SmallBox.resize
    rw [if_neg hh]
    exact new_copy_countP_zero toSp _ h p hpa hpc

theorem downcast_countP_zero (sb : SmallBox) (t : Ty) (p : Event → Bool)
    (hpc : ∀ n, p (Event.copy n) = false) :
    ((sb.downcast t).2).countP p = 0 := by
  unfold SmallBox.downcast SmallBox.downcast_unchecked
  split
  · split
    · rfl
    · simp [List.countP_cons, List.countP_nil, hpc]
  · rfl

theorem runOps_countP_zero (ops : List Op) (sb : SmallBox) (h : Heap) (p : Event → Bool)
    (hpa : ∀ l a, p (Event.alloc l a) = false) (hpc : ∀ n, p (Event.copy n) = false) :
    ((runOps ops sb h).2.2).countP p = 0 := by
  induction ops generalizing sb h with
  | nil => rfl
  | cons op rest ih =>
      cases op with
      | resize toSp =>
          simp only [runOps, List.countP_append]
          rw [resize_countP_zero sb toSp h p hpa hpc, ih]
      | downcast t =>
          simp only [runOps, List.countP_append]
          rw [downcast_countP_zero sb t p hpc, ih]

theorem drop_events (sb : SmallBox) (h : Heap) :
    (sb.drop h).2 =
      if sb.is_heap && (sb.meta.layout.align_to MIN_ALIGNMENT).size != 0 then
        [Event.dropVal sb.meta.id,
          Event.dealloc sb.ptrAddr (sb.meta.layout.align_to MIN_ALIGNMENT)]
      else [Event.dropVal sb.meta.id] := by
  simp only [SmallBox.drop]
  split <;> rfl

theorem drop_countP_isDropVal (sb : SmallBox) (h : Heap) :
    ((sb.drop h).2).countP isDropVal = 1 := by
  rw [drop_events]
  split <;> rfl

theorem drop_countP_isDropSpace (sb : SmallBox) (h : Heap) :
    ((sb.drop h).2).countP isDropSpace = 0 := by
  rw [drop_events]
  split <;> rfl

theorem lifecycle_countP_isDropVal (sp : Layout) (ops : List Op) (v : Val) (h : Heap) :
    (lifecycle sp ops v h).countP isDropVal = 1 := by
  simp only [lifecycle, List.countP_append]
  rw [new_copy_countP_zero _ _ _ isDropVal (fun l a => rfl) (fun n => rfl),
    runOps_countP_zero _ _ _ isDropVal (fun l a => rfl) (fun n => rfl),
    drop_countP_isDropVal]

/-- C2: over a full container lifetime (construction, any sequence of
resizes and downcasts, then drop) the boxed value's destructor event occurs
exactly once; inside drop, the destructor event comes first and a
deallocation occurs exactly when the box is heap placed and the value's
layout size is nonzero, hence strictly after the destructor. -/
theorem destructor_runs_exactly_once (sp : Layout) (ops : List Op) (v : Val) (h : Heap) :
    (lifecycle sp ops v h).countP isDropVal = 1 ∧
    (∀ (sb : SmallBox) (hp : Heap),
      ((sb.drop hp).2).head? = some (Event.dropVal sb.meta.id) ∧
      (((sb.drop hp).2).countP isDealloc = 1 ↔
        (sb.is_heap = true ∧ sb.meta.size ≠ 0))) := by
  refine ⟨lifecycle_countP_isDropVal sp ops v h, fun sb hp => ⟨?_, ?_⟩⟩
  · rw [drop_events]
    split <;> rfl
  · rw [drop_events]
    split
    next hc =>
      simp only [Bool.and_eq_true, bne_iff_ne, ne_eq, Layout.align_to, Ty.layout] at hc
      exact ⟨fun _ => ⟨hc.1, hc.2⟩, fun _ => rfl⟩
    next hc =>
      simp only [Bool.and_eq_true, bne_iff_ne, ne_eq, Layout.align_to, Ty.layout] at hc
      have h0 : List.countP isDealloc [Event.dropVal sb.meta.id] = 0 := rfl
      rw [h0]
      exact ⟨fun h01 => absurd h01 (by omega), fun hr => absurd hr hc⟩

/-- Witness for C2 at a concrete lifetime with one resize and one
downcast. -/
theorem destructor_runs_exactly_once_witness :
    (lifecycle ⟨8, 8⟩ [Op.resize ⟨32, 8⟩, Op.downcast ⟨16, 8, 2⟩]
        ⟨⟨16, 8, 2⟩, List.range 16⟩ ⟨0, []⟩).countP isDropVal = 1 :=
  (destructor_runs_exactly_once ⟨8, 8⟩ [Op.resize ⟨32, 8⟩, Op.downcast ⟨16, 8, 2⟩]
      ⟨⟨16, 8, 2⟩, List.range 16⟩ ⟨0, []⟩).1

/-- C10: the Space type's destructor event never occurs: not across a full
lifetime, not in into_inner, and not in drop, which performs exactly the
boxed value's destructor. -/
theorem space_destructor_never_runs (sp : Layout) (ops : List Op) (v : Val) (h : Heap)
    (sb : SmallBox) (hp : Heap) :
    (lifecycle sp ops v h).countP isDropSpace = 0 ∧
    ((sb.into_inner hp).2.2).countP isDropSpace = 0 ∧
    ((sb.drop hp).2).countP isDropSpace = 0 ∧
    ((sb.drop hp).2).countP isDropVal = 1 := by
  refine ⟨?_, ?_, drop_countP_isDropSpace sb hp, drop_countP_isDropVal sb hp⟩
  · simp only [lifecycle, List.countP_append]
    rw [new_copy_countP_zero _ _ _ isDropSpace (fun l a => rfl) (fun n => rfl),
      runOps_countP_zero _ _ _ isDropSpace (fun l a => rfl) (fun n => rfl),
      drop_countP_isDropSpace]
  · rw [into_inner_events]
    split <;> rfl

/-- Witness for C10 at a concrete lifetime. -/
theorem space_destructor_never_runs_witness :
    (lifecycle ⟨8, 8⟩ [Op.resize ⟨32, 8⟩] ⟨⟨16, 8, 2⟩, List.range 16⟩ ⟨0, []⟩).countP
        isDropSpace = 0 :=
  (space_destructor_never_runs ⟨8, 8⟩ [Op.resize ⟨32, 8⟩] ⟨⟨16, 8, 2⟩, List.range 16⟩
      ⟨0, []⟩ ⟨⟨8, 8⟩, 1, ⟨0, 1, 0⟩, []⟩ ⟨0, []⟩).1

/-- C7 counterexample: a zero-sized value whose alignment fits the capacity
(here align 1 against an 8-byte, 8-aligned capacity) takes the inline
branch, so is_heap is false right after construction — refuting the claim
that every zero-sized value is treated as heap-shaped with is_heap true. -/
theorem zst_heap_shaped_counterexample :
    ((new_copy ⟨8, 8⟩ ⟨⟨0, 1, 7⟩, []⟩ ⟨0, []⟩).1).is_heap = false := by decide

theorem new_copy_zst_countP_isAlloc (sp : Layout) (v : Val) (h : Heap)
    (hz : v.ty.size = 0) :
    ((new_copy sp v h).2.2).countP isAlloc = 0 := by
  by_cases hfit : v.ty.size ≤ sp.size ∧ v.ty.align ≤ sp.align
  · rw [new_copy_fit sp v h hfit]
    rfl
  · rw [new_copy_zst sp v h hfit hz]
    rfl

theorem resize_zst_countP_isAlloc (sb : SmallBox) (toSp : Layout) (h : Heap)
    (hz : sb.meta.size = 0) :
    ((sb.resize toSp h).2.2).countP isAlloc = 0 := by
  by_cases hh : sb.is_heap = true
  · unfold SmallBox.resize
    rw [if_pos hh]
    rfl
  · unfold SmallBox.resize
    rw [if_neg hh]
    exact new_copy_zst_countP_isAlloc toSp _ h hz

theorem runResizes_zst_countP_isAlloc (caps : List Layout) (sb : SmallBox) (h : Heap)
    (hz : sb.meta.size = 0) :
    ((runResizes caps sb h).2.2).countP isAlloc = 0 := by
  induction caps generalizing sb h with
  | nil => rfl
  | cons c rest ih =>
      simp only [runResizes, List.countP_append]
      rw [resize_zst_countP_isAlloc sb c h hz,
        ih _ _ (by rw [resize_meta]; exact hz)]

/-- C7 (amended): a zero-sized value never triggers an allocator call under
construction, any sequence of resizes, or downcast; when the zero-sized
value's alignment fits the capacity it is stored inline (is_heap false),
and only when its alignment exceeds the capacity's is the address
synthesized purely from the alignment, making the container heap-shaped
(is_heap true) while backed by no allocation. -/
theorem zst_never_allocates (sp : Layout) (v : Val) (h : Heap) (caps : List Layout)
    (target : Ty) (hz : v.ty.size = 0) (hsp : 1 ≤ sp.align) :
    ((new_copy sp v h).2.2).countP isAlloc = 0 ∧
    ((runResizes caps (new_copy sp v h).1 (new_copy sp v h).2.1).2.2).countP isAlloc = 0 ∧
    (((new_copy sp v h).1).downcast target).2.countP isAlloc = 0 ∧
    (v.ty.align ≤ sp.align → ((new_copy sp v h).1).is_heap = false) ∧
    (¬(v.ty.align ≤ sp.align) →
      (new_copy sp v h).1.ptrAddr = v.ty.align ∧
      ((new_copy sp v h).1).is_heap = true) := by
  refine ⟨new_copy_zst_countP_isAlloc sp v h hz, ?_, ?_, ?_, ?_⟩
  · exact runResizes_zst_countP_isAlloc caps _ _ (by rw [new_copy_meta]; exact hz)
  · exact downcast_countP_zero _ target isAlloc (fun n => rfl)
  · intro ha
    exact new_copy_is_heap_false sp v h ⟨by omega, ha⟩
  · intro ha
    have hnot : ¬(v.ty.size ≤ sp.size ∧ v.ty.align ≤ sp.align) := fun hc => ha hc.2
    constructor
    · rw [new_copy_zst sp v h hnot hz]
    · exact new_copy_is_heap_true sp v h hsp hnot

/-- Witness for C7 (amended): an over-aligned zero-sized value (align 512)
against an 8-byte capacity allocates nothing and gets address 512. -/
theorem zst_never_allocates_witness :
    ((new_copy ⟨8, 8⟩ ⟨⟨0, 512, 7⟩, []⟩ ⟨0, []⟩).2.2).countP isAlloc = 0 ∧
    (new_copy ⟨8, 8⟩ ⟨⟨0, 512, 7⟩, []⟩ ⟨0, []⟩).1.ptrAddr = 512 :=
  ⟨(zst_never_allocates ⟨8, 8⟩ ⟨⟨0, 512, 7⟩, []⟩ ⟨0, []⟩ [] ⟨0, 512, 7⟩
      (by decide) (by decide)).1,
   ((zst_never_allocates ⟨8, 8⟩ ⟨⟨0, 512, 7⟩, []⟩ ⟨0, []⟩ [] ⟨0, 512, 7⟩
      (by decide) (by decide)).2.2.2.2 (by decide)).1⟩

/-- Every allocation event in the trace asks for alignment at least
MIN_ALIGNMENT and receives an address different from the sentinel. -/
def allocsOk (ev : List Event) : Prop :=
  ∀ l a, Event.alloc l a ∈ ev → MIN_ALIGNMENT ≤ l.align ∧ a ≠ INLINE_SENTINEL

theorem allocsOk_nil : allocsOk [] := by
  intro l a hmem
  exact absurd hmem (List.not_mem_nil _)

theorem allocsOk_append {e1 e2 : List Event} (h1 : allocsOk e1) (h2 : allocsOk e2) :
    allocsOk (e1 ++ e2) := by
  intro l a hmem
  rcases List.mem_append.mp hmem with hm | hm
  · exact h1 l a hm
  · exact h2 l a hm

theorem new_copy_allocsOk (sp : Layout) (v : Val) (h : Heap) :
    allocsOk (new_copy sp v h).2.2 := by
  intro l a hmem
  by_cases hfit : v.ty.size ≤ sp.size ∧ v.ty.align ≤ sp.align
  · rw [new_copy_fit sp v h hfit] at hmem
    simp at hmem
  · by_cases hz : v.ty.size = 0
    · rw [new_copy_zst sp v h hfit hz] at hmem
      simp at hmem
    · rw [new_copy_heap sp v h hfit hz] at hmem
      simp only [List.mem_cons, List.not_mem_nil, or_false, Event.alloc.injEq,
        reduceCtorEq] at hmem
      obtain ⟨hl, ha⟩ := hmem
      subst hl
      subst ha
      constructor
      · simp [Layout.align_to, MIN_ALIGNMENT]
      · exact heapAlloc_ne_sentinel v h

theorem resize_allocsOk (sb : SmallBox) (toSp : Layout) (h : Heap) :
    allocsOk (sb.resize toSp h).2.2 := by
  by_cases hh : sb.is_heap = true
  · unfold SmallBox.resize
    rw [if_pos hh]
    exact allocsOk_nil
  · unfold SmallBox.resize
    rw [if_neg hh]
    exact new_copy_allocsOk toSp _ h

theorem downcast_allocsOk (sb : SmallBox) (t : Ty) :
    allocsOk (sb.downcast t).2 := by
  intro l a hmem
  unfold SmallBox.downcast SmallBox.downcast_unchecked at hmem
  split at hmem
  · split at hmem <;> simp at hmem
  · simp at hmem

theorem runOps_allocsOk (ops : List Op) (sb : SmallBox) (h : Heap) :
    allocsOk (runOps ops sb h).2.2 := by
  induction ops generalizing sb h with
  | nil => exact allocsOk_nil
  | cons op rest ih =>
      cases op with
      | resize toSp =>
          simp only [runOps]
          exact allocsOk_append (resize_allocsOk sb toSp h) (ih _ _)
      | downcast t =>
          simp only [runOps]
          exact allocsOk_append (downcast_allocsOk sb t) (ih _ _)

theorem drop_allocsOk (sb : SmallBox) (h : Heap) :
    allocsOk (sb.drop h).2 := by
  intro l a hmem
  rw [drop_events] at hmem
  split at hmem <;> simp at hmem

theorem lifecycle_allocsOk (sp : Layout) (ops : List Op) (v : Val) (h : Heap) :
    allocsOk (lifecycle sp ops v h) := by
  simp only [lifecycle]
  exact allocsOk_append
    (allocsOk_append (new_copy_allocsOk sp v h) (runOps_allocsOk ops _ _))
    (drop_allocsOk _ _)

/-- C8: over any container lifetime every allocation is requested with
alignment at least MIN_ALIGNMENT = 2 and returns an address different from
the sentinel 0x1, so the sentinel can never be confused with a real heap
address; and as_ptr resolves the sentinel by value comparison only,
substituting the inline storage address instead of reading through it. -/
theorem sentinel_never_confused (sp : Layout) (ops : List Op) (v : Val) (h : Heap) :
    allocsOk (lifecycle sp ops v h) ∧
    (∀ (sb : SmallBox) (spaceAddr : Nat),
      (sb.is_heap = false → sb.as_ptr_addr spaceAddr = spaceAddr) ∧
      (sb.is_heap = true → sb.as_ptr_addr spaceAddr = sb.ptrAddr)) := by
  refine ⟨lifecycle_allocsOk sp ops v h, fun sb spaceAddr => ⟨?_, ?_⟩⟩
  · intro hf
    unfold SmallBox.as_ptr_addr
    rw [if_neg (by simp [hf])]
  · intro ht
    unfold SmallBox.as_ptr_addr
    rw [if_pos ht]

/-- Witness for C8: the single allocation in a concrete lifetime has
alignment 8 (at least 2) and address 8 (not the sentinel). -/
theorem sentinel_never_confused_witness :
    MIN_ALIGNMENT ≤ (⟨16, 8⟩ : Layout).align ∧ (8 : Nat) ≠ INLINE_SENTINEL :=
  (sentinel_never_confused ⟨8, 8⟩ [] ⟨⟨16, 8, 2⟩, List.range 16⟩ ⟨0, []⟩).1
    ⟨16, 8⟩ 8 (by decide)

end SmallBoxModel
